import Mathlib

/-!
Shallow embedding of the db-rs key-value store core:
src/parser.rs (StatementType, Statement, Statement::prep) and
src/store.rs (ExecResult, Store with set/get/del over a HashMap).

Modelling conventions:
- Rust `String.split(|c| c == ' ' || c == '\t')` is embedded as `splitCmd`,
  which splits at every single separator character and keeps empty tokens,
  exactly like the Rust pattern split (so "" yields [""]).
- Rust `str::to_lowercase` is embedded as ASCII lowercasing (`lowerStr`);
  every keyword in the synonym table is ASCII, and no non-ASCII character
  lowercases to a string occurring in the table, so this is faithful on
  the classification domain.
- Rust `str::trim` is embedded as dropping whitespace characters from both
  ends (`trimStr`).
- `HashMap<A, B>` is embedded as an association list `List (A × B)` whose
  observable content is `lookup`; `HashMap::insert` replaces any existing
  binding and `HashMap::remove` deletes the binding, which `insertHM` and
  `removeKey` reproduce extensionally.
- The `eprintln!`/`println!` diagnostics of `Statement::prep` are modelled
  by the `Diagnostic` inductive; `prepCore` returns the parsed statement
  together with the list of diagnostics in emission order, and
  `Statement.prep` projects the statement.
-/

namespace DbRs

/-- The statement kinds of src/parser.rs: Set, Get, Del, Unk (no such
operation) and Fail (wrong command syntax). -/
inductive StatementType
  | Set
  | Get
  | Del
  | Unk
  | Fail
  deriving DecidableEq

/-- ASCII lowercasing of a single character, embedding the effect of
Rust `to_lowercase` on the ASCII range. -/
def lowerChar (c : Char) : Char :=
  if 'A' ≤ c ∧ c ≤ 'Z' then Char.ofNat (c.toNat + 32) else c

/-- ASCII lowercasing of a string. -/
def lowerStr (s : String) : String :=
  ⟨s.data.map lowerChar⟩

/-- Embeds `StatementType::check`: case-insensitive lookup of an operation
keyword in the fixed synonym table; the Rust `match` arms with `|` patterns
become ordered disjunction tests. -/
def StatementType.check (word : String) : StatementType :=
  let w := lowerStr word
  if w = "set" ∨ w = "put" ∨ w = "insert" ∨ w = "in" ∨ w = "i" then .Set
  else if w = "get" ∨ w = "select" ∨ w = "output" ∨ w = "out" ∨ w = "o" then .Get
  else if w = "del" ∨ w = "delete" ∨ w = "rem" ∨ w = "remove" ∨ w = "rm" ∨ w = "d" then .Del
  else .Unk

/-- Embeds `StatementType::get_word`. -/
def StatementType.get_word : StatementType → String
  | .Set => "SET"
  | .Get => "GET"
  | .Del => "DEL"
  | _ => "Unknown"

/-- Embeds the `Statement` struct of src/parser.rs. -/
structure Statement where
  stype : StatementType
  key : Option String
  value : Option String
  deriving DecidableEq

/-- Diagnostic classes emitted by `Statement::prep` via eprintln, one per
message site: KEY not provided, VALUE not provided, too many inputs. -/
inductive Diagnostic
  | keyNotProvided (op : String)
  | valueNotProvided (op : String)
  | tooManyInputs (ignored : String)
  deriving DecidableEq

/-- Splitting a character list at every character satisfying `p`, keeping
empty segments, exactly as the Rust pattern `split` does (the empty input
yields one empty segment). -/
def splitChars (p : Char → Bool) : List Char → List (List Char)
  | [] => [[]]
  | c :: cs =>
    if p c then [] :: splitChars p cs
    else
      match splitChars p cs with
      | [] => [[c]]
      | t :: ts => (c :: t) :: ts

/-- Separator predicate of `Statement::prep`: space or tab. -/
def isSep (c : Char) : Bool :=
  c == ' ' || c == '\t'

/-- Embeds `cmd.split(|c| c == ' ' || c == '\t').collect()`. -/
def splitCmd (s : String) : List String :=
  (splitChars isSep s.data).map (fun l => ⟨l⟩)

/-- Embeds `Vec<&str>::join(" ")`. -/
def joinSpace : List String → String
  | [] => ""
  | [s] => s
  | s :: rest => s ++ " " ++ joinSpace rest

/-- Embeds `str::trim`: drop whitespace from both ends. -/
def trimStr (s : String) : String :=
  ⟨((s.data.dropWhile Char.isWhitespace).reverse.dropWhile Char.isWhitespace).reverse⟩

/-- Embeds the body of `Statement::prep` after the split: given the word
list, computes the statement together with the diagnostics in the order
the eprintln calls fire (key diagnostics before value diagnostics). -/
def prepCore (cmd_words : List String) : Statement × List Diagnostic :=
  let stype := StatementType.check (cmd_words.headD "")
  let cmd_val :=
    if cmd_words.length > 1 then trimStr (joinSpace (cmd_words.drop 2)) else ""
  let keyRes : Option String × List Diagnostic :=
    match stype with
    | .Get | .Set | .Del =>
      if cmd_words.length < 2 then
        (none, [Diagnostic.keyNotProvided stype.get_word])
      else
        (some (cmd_words.getD 1 ""), [])
    | _ => (none, [])
  let valueRes : Option String × List Diagnostic :=
    match stype with
    | .Set =>
      if cmd_words.length < 3 then
        (none, [Diagnostic.valueNotProvided stype.get_word])
      else
        (some cmd_val, [])
    | .Get | .Del =>
      if cmd_words.length > 2 then (none, [Diagnostic.tooManyInputs cmd_val])
      else (none, [])
    | _ => (none, [])
  let st :=
    if (stype = StatementType.Set ∧ valueRes.1 = none)
        ∨ (stype ≠ StatementType.Unk ∧ keyRes.1 = none) then
      { stype := StatementType.Fail, key := none, value := none }
    else
      { stype := stype, key := keyRes.1, value := valueRes.1 }
  (st, keyRes.2 ++ valueRes.2)

/-- Embeds `Statement::prep`: split the command, then parse. -/
def Statement.prep (cmd : String) : Statement :=
  (prepCore (splitCmd cmd)).1

/-- The diagnostics `Statement::prep` emits on a given command. -/
def prepDiags (cmd : String) : List Diagnostic :=
  (prepCore (splitCmd cmd)).2

/-- Embeds `ExecResult` of src/store.rs. -/
inductive ExecResult
  | Success
  | Failed
  deriving DecidableEq

/-- Association-list lookup: the observable content of the embedded
`HashMap<A, B>`. -/
def lookup {A B : Type} [DecidableEq A] : List (A × B) → A → Option B
  | [], _ => none
  | (a, b) :: t, k => if a = k then some b else lookup t k

/-- Embeds `HashMap::contains_key`. -/
def containsKey {A B : Type} [DecidableEq A] (m : List (A × B)) (k : A) : Bool :=
  (lookup m k).isSome

/-- Removing every binding of a key, embedding `HashMap::remove`. -/
def removeKey {A B : Type} [DecidableEq A] (m : List (A × B)) (k : A) : List (A × B) :=
  m.filter (fun p => p.1 != k)

/-- Embeds `HashMap::insert`: bind `k` to `v`, replacing any previous
binding. -/
def insertHM {A B : Type} [DecidableEq A] (m : List (A × B)) (k : A) (v : B) : List (A × B) :=
  (k, v) :: removeKey m k

/-- Embeds `Store::new`. -/
def Store.new {A B : Type} : List (A × B) :=
  []

/-- Embeds `Store::set`: fails when the key is already bound, otherwise
inserts the pair; returns the new store and the result. -/
def Store.set {A B : Type} [DecidableEq A] (m : List (A × B)) (k : A) (v : B) :
    List (A × B) × ExecResult :=
  if containsKey m k then (m, ExecResult.Failed)
  else (insertHM m k v, ExecResult.Success)

/-- Embeds `Store::get`: fails when the key is absent, otherwise returns a
clone of the stored value (cloning is the identity in the embedding). -/
def Store.get {A B : Type} [DecidableEq A] (m : List (A × B)) (k : A) :
    Except ExecResult B :=
  match lookup m k with
  | none => Except.error ExecResult.Failed
  | some s => Except.ok s

/-- Embeds `Store::del`: removes the binding when present, otherwise
fails; returns the new store and the result. -/
def Store.del {A B : Type} [DecidableEq A] (m : List (A × B)) (k : A) :
    List (A × B) × ExecResult :=
  match lookup m k with
  | some _ => (removeKey m k, ExecResult.Success)
  | none => (m, ExecResult.Failed)

/-! Helper lemmas about the embedded map operations. -/

theorem lookup_removeKey_self {A B : Type} [DecidableEq A] (m : List (A × B)) (k : A) :
    lookup (removeKey m k) k = none := by
  induction m with
  | nil => rfl
  | cons p t ih =>
    obtain ⟨a, b⟩ := p
    by_cases h : a = k
    · simpa [removeKey, List.filter_cons, h] using ih
    · simpa [removeKey, List.filter_cons, h, lookup] using ih

theorem lookup_removeKey_ne {A B : Type} [DecidableEq A] (m : List (A × B)) (k k' : A)
    (h : k ≠ k') : lookup (removeKey m k) k' = lookup m k' := by
  induction m with
  | nil => rfl
  | cons p t ih =>
    obtain ⟨a, b⟩ := p
    by_cases ha : a = k
    · subst ha
      simpa [removeKey, List.filter_cons, lookup, h] using ih
    · by_cases ha' : a = k'
      · simp [removeKey, List.filter_cons, lookup, ha, ha', Ne.symm h]
      · simpa [removeKey, List.filter_cons, lookup, ha, ha'] using ih

theorem lookup_insertHM_self {A B : Type} [DecidableEq A] (m : List (A × B)) (k : A) (v : B) :
    lookup (insertHM m k v) k = some v := by
  simp [insertHM, lookup]

theorem lookup_insertHM_ne {A B : Type} [DecidableEq A] (m : List (A × B)) (k k' : A) (v : B)
    (h : k ≠ k') : lookup (insertHM m k v) k' = lookup m k' := by
  simp only [insertHM, lookup, if_neg h]
  exact lookup_removeKey_ne m k k' h

theorem containsKey_eq_true_iff {A B : Type} [DecidableEq A] (m : List (A × B)) (k : A) :
    containsKey m k = true ↔ lookup m k ≠ none := by
  simp [containsKey, Option.isSome_iff_ne_none]

/-! Claim theorems about the storage engine. -/

/-- C1: set returns Failed exactly when the key is already present; on
Failed the mapping is unchanged (the existing value is not overwritten);
on Success the pair is inserted, and after a successful set followed by a
failed second set on the same key, get still returns the first value. -/
theorem C1_set_no_upsert {A B : Type} [DecidableEq A] (m : List (A × B)) (k : A) (v v2 : B) :
    ((Store.set m k v).2 = ExecResult.Failed ↔ containsKey m k = true)
    ∧ ((Store.set m k v).2 = ExecResult.Failed → (Store.set m k v).1 = m)
    ∧ ((Store.set m k v).2 = ExecResult.Success →
        lookup (Store.set m k v).1 k = some v
        ∧ (Store.set (Store.set m k v).1 k v2).2 = ExecResult.Failed
        ∧ Store.get (Store.set (Store.set m k v).1 k v2).1 k = Except.ok v) := by
  by_cases h : containsKey m k
  · simp [Store.set, h]
  · have hins : lookup (insertHM m k v) k = some v := lookup_insertHM_self m k v
    have hc2 : containsKey (insertHM m k v) k = true := by
      simp [containsKey, hins]
    simp [Store.set, h, hc2, hins, Store.get]

/-- C1 witness: concrete run on the empty store. -/
theorem C1_set_no_upsert_witness :
    (Store.set (Store.new : List (String × String)) "k" "v").2 = ExecResult.Success
    ∧ (Store.set (Store.set (Store.new : List (String × String)) "k" "v").1 "k" "v2").2
        = ExecResult.Failed
    ∧ Store.get (Store.set (Store.set (Store.new : List (String × String)) "k" "v").1
        "k" "v2").1 "k" = Except.ok "v" := by
  have h := (C1_set_no_upsert (Store.new : List (String × String)) "k" "v" "v2").2.2 (by decide)
  exact ⟨by decide, h.2.1, h.2.2⟩

/-- C4: del returns Failed exactly when the key is absent; on a present
key it returns Success, removes the pair, and a subsequent get fails. -/
theorem C4_del_failed_iff_absent {A B : Type} [DecidableEq A] (m : List (A × B)) (k : A) :
    ((Store.del m k).2 = ExecResult.Failed ↔ lookup m k = none)
    ∧ (lookup m k ≠ none →
        (Store.del m k).2 = ExecResult.Success
        ∧ Store.get (Store.del m k).1 k = Except.error ExecResult.Failed) := by
  cases hm : lookup m k with
  | none => simp [Store.del, hm]
  | some b =>
    have hrm : lookup (removeKey m k) k = none := lookup_removeKey_self m k
    simp [Store.del, hm, Store.get, hrm]

/-- C4 witness: concrete run on a singleton store. -/
theorem C4_del_failed_iff_absent_witness :
    (Store.del [(("k" : String), ("v" : String))] "k").2 = ExecResult.Success
    ∧ Store.get (Store.del [(("k" : String), ("v" : String))] "k").1 "k"
        = Except.error ExecResult.Failed := by
  exact (C4_del_failed_iff_absent [(("k" : String), ("v" : String))] "k").2 (by decide)

/-- C5: get fails exactly when the key is absent, otherwise it returns the
stored value; on the freshly created empty store every get fails. -/
theorem C5_get_spec {A B : Type} [DecidableEq A] (m : List (A × B)) (k : A) :
    (Store.get m k = Except.error ExecResult.Failed ↔ lookup m k = none)
    ∧ (∀ v : B, Store.get m k = Except.ok v ↔ lookup m k = some v)
    ∧ Store.get (Store.new : List (A × B)) k = Except.error ExecResult.Failed := by
  refine ⟨?_, ?_, ?_⟩
  · cases hm : lookup m k <;> simp [Store.get, hm]
  · intro v
    cases hm : lookup m k <;> simp [Store.get, hm]
  · rfl

/-- C5 witness: concrete run on a singleton store and on the empty store. -/
theorem C5_get_spec_witness :
    Store.get [(("k" : String), ("v" : String))] "k" = Except.ok "v"
    ∧ Store.get (Store.new : List (String × String)) "k"
        = Except.error ExecResult.Failed := by
  refine ⟨((C5_get_spec [(("k" : String), ("v" : String))] "k").2.1 "v").mpr (by decide),
    (C5_get_spec (Store.new : List (String × String)) "k").2.2⟩

/-- C10: set and del on a key leave the binding of every other key
unchanged, whether they succeed or fail. -/
theorem C10_frame {A B : Type} [DecidableEq A] (m : List (A × B)) (k k' : A) (v : B)
    (h : k ≠ k') :
    lookup (Store.set m k v).1 k' = lookup m k'
    ∧ lookup (Store.del m k).1 k' = lookup m k' := by
  constructor
  · by_cases hc : containsKey m k
    · simp [Store.set, hc]
    · simp [Store.set, hc]
      exact lookup_insertHM_ne m k k' v h
  · cases hm : lookup m k with
    | none => simp [Store.del, hm]
    | some b =>
      simp [Store.del, hm]
      exact lookup_removeKey_ne m k k' h

/-- C10 witness: concrete run with two distinct keys. -/
theorem C10_frame_witness :
    lookup (Store.set [(("b" : String), ("1" : String))] "a" "x").1 "b"
      = lookup [(("b" : String), ("1" : String))] "b"
    ∧ lookup (Store.del [(("b" : String), ("1" : String))] "a").1 "b"
      = lookup [(("b" : String), ("1" : String))] "b" :=
  C10_frame [(("b" : String), ("1" : String))] "a" "b" "x" (by decide)

/-! Helper lemmas about the parser. -/

theorem check_ne_Fail (w : String) : StatementType.check w ≠ StatementType.Fail := by
  simp only [StatementType.check]
  split_ifs <;> simp

theorem splitChars_ne_nil (p : Char → Bool) (l : List Char) : splitChars p l ≠ [] := by
  cases l with
  | nil => simp [splitChars]
  | cons c cs =>
    simp only [splitChars]
    split
    · simp
    · split <;> simp

theorem splitCmd_length_pos (cmd : String) : 1 ≤ (splitCmd cmd).length := by
  have h := splitChars_ne_nil isSep cmd.data
  have : splitChars isSep cmd.data ≠ [] := h
  have hpos : 0 < (splitChars isSep cmd.data).length := List.length_pos.mpr this
  simpa [splitCmd] using hpos

/-- Case analysis of `prepCore`: the seven reachable outcome shapes, with
the exact statement and diagnostic list produced in each. -/
theorem prepCore_cases (w : List String) :
    (StatementType.check (w.headD "") = StatementType.Unk ∧
      prepCore w = (⟨StatementType.Unk, none, none⟩, []))
    ∨ ((StatementType.check (w.headD "") = StatementType.Get ∨
        StatementType.check (w.headD "") = StatementType.Del) ∧ w.length < 2 ∧
      prepCore w = (⟨StatementType.Fail, none, none⟩,
        [Diagnostic.keyNotProvided (StatementType.check (w.headD "")).get_word]))
    ∨ ((StatementType.check (w.headD "") = StatementType.Get ∨
        StatementType.check (w.headD "") = StatementType.Del) ∧ w.length = 2 ∧
      prepCore w = (⟨StatementType.check (w.headD ""), some (w.getD 1 ""), none⟩, []))
    ∨ ((StatementType.check (w.headD "") = StatementType.Get ∨
        StatementType.check (w.headD "") = StatementType.Del) ∧ 2 < w.length ∧
      prepCore w = (⟨StatementType.check (w.headD ""), some (w.getD 1 ""), none⟩,
        [Diagnostic.tooManyInputs (trimStr (joinSpace (w.drop 2)))]))
    ∨ (StatementType.check (w.headD "") = StatementType.Set ∧ w.length < 2 ∧
      prepCore w = (⟨StatementType.Fail, none, none⟩,
        [Diagnostic.keyNotProvided "SET", Diagnostic.valueNotProvided "SET"]))
    ∨ (StatementType.check (w.headD "") = StatementType.Set ∧ w.length = 2 ∧
      prepCore w = (⟨StatementType.Fail, none, none⟩,
        [Diagnostic.valueNotProvided "SET"]))
    ∨ (StatementType.check (w.headD "") = StatementType.Set ∧ 3 ≤ w.length ∧
      prepCore w = (⟨StatementType.Set, some (w.getD 1 ""),
        some (trimStr (joinSpace (w.drop 2)))⟩, [])) := by
  cases hc : StatementType.check (w.headD "") with
  | Fail => exact absurd hc (check_ne_Fail (w.headD ""))
  | Unk =>
    refine Or.inl ⟨rfl, ?_⟩
    simp only [prepCore, hc]
    simp
  | Set =>
    by_cases h2 : w.length < 2
    · refine Or.inr (Or.inr (Or.inr (Or.inr (Or.inl ⟨rfl, h2, ?_⟩))))
      have h3 : w.length < 3 := by omega
      have h1 : ¬ (w.length > 1) := by omega
      simp only [prepCore, hc]
      simp [h2, h3, h1, StatementType.get_word]
    · by_cases h3 : w.length < 3
      · refine Or.inr (Or.inr (Or.inr (Or.inr (Or.inr (Or.inl ⟨rfl, by omega, ?_⟩)))))
        have h1 : w.length > 1 := by omega
        simp only [prepCore, hc]
        simp [h2, h3, h1, StatementType.get_word]
      · refine Or.inr (Or.inr (Or.inr (Or.inr (Or.inr (Or.inr ⟨rfl, by omega, ?_⟩)))))
        have h1 : w.length > 1 := by omega
        simp only [prepCore, hc]
        simp [h2, h3, h1]
  | Get =>
    by_cases h2 : w.length < 2
    · refine Or.inr (Or.inl ⟨Or.inl rfl, h2, ?_⟩)
      have hg : ¬ (w.length > 2) := by omega
      simp only [prepCore, hc]
      simp [h2, hg]
    · by_cases hg : w.length > 2
      · refine Or.inr (Or.inr (Or.inr (Or.inl ⟨Or.inl rfl, hg, ?_⟩)))
        have h1 : w.length > 1 := by omega
        simp only [prepCore, hc]
        simp [h2, hg, h1]
      · refine Or.inr (Or.inr (Or.inl ⟨Or.inl rfl, by omega, ?_⟩))
        simp only [prepCore, hc]
        simp [h2, hg]
  | Del =>
    by_cases h2 : w.length < 2
    · refine Or.inr (Or.inl ⟨Or.inr rfl, h2, ?_⟩)
      have hg : ¬ (w.length > 2) := by omega
      simp only [prepCore, hc]
      simp [h2, hg]
    · by_cases hg : w.length > 2
      · refine Or.inr (Or.inr (Or.inr (Or.inl ⟨Or.inr rfl, hg, ?_⟩)))
        have h1 : w.length > 1 := by omega
        simp only [prepCore, hc]
        simp [h2, hg, h1]
      · refine Or.inr (Or.inr (Or.inl ⟨Or.inr rfl, by omega, ?_⟩))
        simp only [prepCore, hc]
        simp [h2, hg]

/-- Tokenization as the spec describes it: maximal runs of spaces or tabs
count as one separator, which equals splitting at each separator and then
dropping the empty tokens (spec-side definition, kept only to compare with
the code's `splitCmd`). -/
def runTokens (s : String) : List String :=
  (splitCmd s).filter (fun t => t != "")

/-! Claim theorems about the parser. -/

/-- C9: prep is total: the split token list is never empty, so the access
to the first token cannot fail, and the fully empty line yields an Unknown
statement with no key and no value. -/
theorem C9_prep_total (cmd : String) :
    1 ≤ (splitCmd cmd).length
    ∧ Statement.prep "" = ⟨StatementType.Unk, none, none⟩ :=
  ⟨splitCmd_length_pos cmd, by decide⟩

/-- C8: check classifies a word by case-insensitive membership in the
fixed synonym table, and every word outside the table maps to Unk. -/
theorem C8_check_synonyms (w : String) :
    (StatementType.check w = StatementType.Set ↔
      lowerStr w ∈ ["set", "put", "insert", "in", "i"])
    ∧ (StatementType.check w = StatementType.Get ↔
      lowerStr w ∈ ["get", "select", "output", "out", "o"])
    ∧ (StatementType.check w = StatementType.Del ↔
      lowerStr w ∈ ["del", "delete", "rem", "remove", "rm", "d"])
    ∧ (StatementType.check w = StatementType.Unk ↔
      lowerStr w ∉ ["set", "put", "insert", "in", "i", "get", "select", "output",
        "out", "o", "del", "delete", "rem", "remove", "rm", "d"]) := by
  simp only [StatementType.check]
  split_ifs with hS hG hD
  · rcases hS with h | h | h | h | h <;> simp [h]
  · rcases hG with h | h | h | h | h <;> simp [h]
  · rcases hD with h | h | h | h | h | h <;> simp [h]
  · push_neg at hS hG hD
    obtain ⟨s1, s2, s3, s4, s5⟩ := hS
    obtain ⟨g1, g2, g3, g4, g5⟩ := hG
    obtain ⟨d1, d2, d3, d4, d5, d6⟩ := hD
    simp [s1, s2, s3, s4, s5, g1, g2, g3, g4, g5, d1, d2, d3, d4, d5, d6]

/-- C8 witness: a mixed-case synonym of Set. -/
theorem C8_check_synonyms_witness :
    StatementType.check "PuT" = StatementType.Set :=
  (C8_check_synonyms "PuT").1.mpr (by decide)

/-- C2 counterexample: an unknown statement has kind Unk with both key and
value absent, so both absent does not force kind Fail. -/
theorem C2_counterexample :
    ¬ ((Statement.prep "UNKNOWN_STATEMENT").stype = StatementType.Fail ↔
      ((Statement.prep "UNKNOWN_STATEMENT").key = none
        ∧ (Statement.prep "UNKNOWN_STATEMENT").value = none)) := by
  decide

/-- C2 amended: kind Fail forces key and value absent; conversely, among
statements whose kind is not Unknown, both absent forces kind Fail; and
Unknown statements also carry no key and no value. -/
theorem C2_fail_key_value_amended (cmd : String) :
    ((Statement.prep cmd).stype = StatementType.Fail →
      (Statement.prep cmd).key = none ∧ (Statement.prep cmd).value = none)
    ∧ ((Statement.prep cmd).stype ≠ StatementType.Unk →
      ((Statement.prep cmd).key = none ∧ (Statement.prep cmd).value = none) →
      (Statement.prep cmd).stype = StatementType.Fail)
    ∧ ((Statement.prep cmd).stype = StatementType.Unk →
      (Statement.prep cmd).key = none ∧ (Statement.prep cmd).value = none) := by
  rcases prepCore_cases (splitCmd cmd) with ⟨hk, he⟩ | ⟨hk, hl, he⟩ | ⟨hk, hl, he⟩ |
    ⟨hk, hl, he⟩ | ⟨hk, hl, he⟩ | ⟨hk, hl, he⟩ | ⟨hk, hl, he⟩
  · simp [Statement.prep, he]
  · simp [Statement.prep, he]
  · rcases hk with hk | hk <;> simp only [Statement.prep, he, hk] <;> simp
  · rcases hk with hk | hk <;> simp only [Statement.prep, he, hk] <;> simp
  · simp [Statement.prep, he]
  · simp [Statement.prep, he]
  · simp [Statement.prep, he]

/-- C2 witness: a concrete Fail statement with both fields absent. -/
theorem C2_fail_key_value_amended_witness :
    (Statement.prep "GET").key = none ∧ (Statement.prep "GET").value = none :=
  (C2_fail_key_value_amended "GET").1 (by decide)

/-- C3 counterexample: on a line with two adjacent separators the parser
still succeeds as Get, but the key is the raw (empty) second token, not the
second whitespace-run token. -/
theorem C3_counterexample :
    (Statement.prep "GET  KEY").stype = StatementType.Get
    ∧ (Statement.prep "GET  KEY").key ≠ some ((runTokens "GET  KEY").getD 1 "") := by
  decide

/-- C3 amended: prep splits at every single space or tab, keeping empty
tokens; whenever a Get or Del statement parses successfully its key is the
raw second token verbatim and its value is absent, and whenever a Set
statement parses successfully its key is the raw second token and its
value is the raw third-onward tokens rejoined with single spaces and
trimmed. -/
theorem C3_amended_raw_tokens (cmd : String) :
    ((Statement.prep cmd).stype = StatementType.Get ∨
      (Statement.prep cmd).stype = StatementType.Del →
      (Statement.prep cmd).key = some ((splitCmd cmd).getD 1 "")
      ∧ (Statement.prep cmd).value = none)
    ∧ ((Statement.prep cmd).stype = StatementType.Set →
      (Statement.prep cmd).key = some ((splitCmd cmd).getD 1 "")
      ∧ (Statement.prep cmd).value = some (trimStr (joinSpace ((splitCmd cmd).drop 2)))) := by
  rcases prepCore_cases (splitCmd cmd) with ⟨hk, he⟩ | ⟨hk, hl, he⟩ | ⟨hk, hl, he⟩ |
    ⟨hk, hl, he⟩ | ⟨hk, hl, he⟩ | ⟨hk, hl, he⟩ | ⟨hk, hl, he⟩
  · simp [Statement.prep, he]
  · simp [Statement.prep, he]
  · rcases hk with hk | hk <;> simp only [Statement.prep, he, hk] <;> simp
  · rcases hk with hk | hk <;> simp only [Statement.prep, he, hk] <;> simp
  · simp [Statement.prep, he]
  · simp [Statement.prep, he]
  · simp [Statement.prep, he]

/-- C3 witness: a concrete successful Set statement, with the key and the
rejoined value evaluated. -/
theorem C3_amended_raw_tokens_witness :
    (Statement.prep "SET A B C").key = some "A"
    ∧ (Statement.prep "SET A B C").value = some "B C" := by
  have h := (C3_amended_raw_tokens "SET A B C").2 (by decide)
  exact ⟨h.1.trans (by decide), h.2.trans (by decide)⟩

/-- C6: the failure promotion rule: a tentative Set without value
candidate, or a tentative Set, Get or Del without key candidate, yields
the Fail statement with both fields absent; a tentative Unknown is never
promoted to Fail; in particular SET MY_KEY and GET alone both fail. -/
theorem C6_fail_promotion (cmd : String) :
    ((StatementType.check ((splitCmd cmd).headD "") = StatementType.Set ∧
        (splitCmd cmd).length < 3) ∨
      ((StatementType.check ((splitCmd cmd).headD "") = StatementType.Set ∨
        StatementType.check ((splitCmd cmd).headD "") = StatementType.Get ∨
        StatementType.check ((splitCmd cmd).headD "") = StatementType.Del) ∧
        (splitCmd cmd).length < 2) →
      Statement.prep cmd = ⟨StatementType.Fail, none, none⟩)
    ∧ (StatementType.check ((splitCmd cmd).headD "") = StatementType.Unk →
      (Statement.prep cmd).stype ≠ StatementType.Fail)
    ∧ Statement.prep "SET MY_KEY" = ⟨StatementType.Fail, none, none⟩
    ∧ Statement.prep "GET" = ⟨StatementType.Fail, none, none⟩ := by
  refine ⟨?_, ?_, by decide, by decide⟩
  · intro hp
    rcases prepCore_cases (splitCmd cmd) with ⟨hc, he⟩ | ⟨hc, hl, he⟩ | ⟨hc, hl, he⟩ |
      ⟨hc, hl, he⟩ | ⟨hc, hl, he⟩ | ⟨hc, hl, he⟩ | ⟨hc, hl, he⟩
    · rw [hc] at hp
      simp at hp
    · simp [Statement.prep, he]
    · rcases hc with hc | hc <;> rw [hc] at hp <;> simp at hp <;> omega
    · rcases hc with hc | hc <;> rw [hc] at hp <;> simp at hp <;> omega
    · simp [Statement.prep, he]
    · simp [Statement.prep, he]
    · rw [hc] at hp
      simp at hp
      omega
  · intro hu
    rcases prepCore_cases (splitCmd cmd) with ⟨hc, he⟩ | ⟨hc, hl, he⟩ | ⟨hc, hl, he⟩ |
      ⟨hc, hl, he⟩ | ⟨hc, hl, he⟩ | ⟨hc, hl, he⟩ | ⟨hc, hl, he⟩
    · simp [Statement.prep, he]
    · rcases hc with hc | hc <;> rw [hc] at hu <;> simp at hu
    · rcases hc with hc | hc <;> rw [hc] at hu <;> simp at hu
    · rcases hc with hc | hc <;> rw [hc] at hu <;> simp at hu
    · rw [hc] at hu; simp at hu
    · rw [hc] at hu; simp at hu
    · rw [hc] at hu; simp at hu

/-- C6 witness: a concrete promotion of a keyless Del to Fail. -/
theorem C6_fail_promotion_witness :
    Statement.prep "DEL" = ⟨StatementType.Fail, none, none⟩ :=
  (C6_fail_promotion "DEL").1 (Or.inr (by decide))

/-- C7: a Get or Del line with more than two raw tokens still succeeds
with the classified kind, the raw second token as key and no value, and
the too-many-inputs warning diagnostic is emitted. -/
theorem C7_extras_ignored (cmd : String)
    (hk : StatementType.check ((splitCmd cmd).headD "") = StatementType.Get
      ∨ StatementType.check ((splitCmd cmd).headD "") = StatementType.Del)
    (hl : 2 < (splitCmd cmd).length) :
    (Statement.prep cmd).stype = StatementType.check ((splitCmd cmd).headD "")
    ∧ (Statement.prep cmd).key = some ((splitCmd cmd).getD 1 "")
    ∧ (Statement.prep cmd).value = none
    ∧ Diagnostic.tooManyInputs (trimStr (joinSpace ((splitCmd cmd).drop 2)))
        ∈ prepDiags cmd := by
  rcases prepCore_cases (splitCmd cmd) with ⟨hc, he⟩ | ⟨hc, hl2, he⟩ | ⟨hc, hl2, he⟩ |
    ⟨hc, hl2, he⟩ | ⟨hc, hl2, he⟩ | ⟨hc, hl2, he⟩ | ⟨hc, hl2, he⟩
  · rw [hc] at hk; simp at hk
  · omega
  · omega
  · simp [Statement.prep, prepDiags, he]
  · rw [hc] at hk; simp at hk
  · rw [hc] at hk; simp at hk
  · rw [hc] at hk; simp at hk

/-- C7 witness: the spec's GET KEY1 KEY2 KEY3 example, with the ignored
content evaluated. -/
theorem C7_extras_ignored_witness :
    (Statement.prep "GET KEY1 KEY2 KEY3").stype = StatementType.Get
    ∧ (Statement.prep "GET KEY1 KEY2 KEY3").key = some "KEY1"
    ∧ Diagnostic.tooManyInputs "KEY2 KEY3" ∈ prepDiags "GET KEY1 KEY2 KEY3" := by
  have h := C7_extras_ignored "GET KEY1 KEY2 KEY3" (by decide) (by decide)
  refine ⟨h.1.trans (by decide), h.2.1.trans (by decide), ?_⟩
  have hd := h.2.2.2
  have ht : trimStr (joinSpace ((splitCmd "GET KEY1 KEY2 KEY3").drop 2)) = "KEY2 KEY3" := by
    decide
  rwa [ht] at hd

end DbRs
